import Mathlib

/-!
Verification of the doconvo RAG core against its natural-language
specification.  The Go source is shallowly embedded: Go strings that are
sliced and measured byte-wise (document contents) are modelled as
`List Char`, Go `string` identifiers and metadata values as `String`,
`float32` similarity scores as `ℚ` (the program only ever adds integral
steps to them and divides two such counters, operations that are exact in
IEEE arithmetic at these magnitudes).  Go maps `map[string]string` carry exactly the keys `filename`,
`originalID` and `chunkIndex` in this program, so metadata is modelled as
three string fields whose Go zero value (the missing-key lookup result)
is `""`.
-/

namespace Doconvo

/-! ## Constants (rag.go lines 31-38).  The repository also carries an
older snapshot of document.go declaring `ragResultsCount = 10` and
`ragSimiliarityThreshold = 0.35`; the values below are the current ones
in rag.go, the ones the spec quotes.  Both snapshots of
`document.retrieve` are identical in every behaviour verified here. -/

def ragResultsCount : Nat := 20

def ragSimiliarityThreshold : ℚ := 1/2

def ragNeededCount : Nat := 10

/-- characters per chunk -/
def chunkSize : Nat := 500

/-- overlap between chunks -/
def chunkOverlap : Nat := 50

/-! ## Data model -/

/-- Model of `chromem.Document` (id, content, metadata); the three metadata
keys this program reads are inlined as fields, `""` standing for a key the
Go map does not hold. -/
structure GoDocument where
  id : String
  content : List Char
  metaFilename : String
  metaOriginalID : String
  metaChunkIndex : String
deriving DecidableEq

/-- Model of `chromem.Result` (id, content, similarity, metadata). -/
structure GoResult where
  id : String
  content : List Char
  similarity : ℚ
  metaFilename : String
  metaOriginalID : String
  metaChunkIndex : String
deriving DecidableEq

/-- Go zero value of `chromem.Result`. -/
def defaultGoResult : GoResult :=
  { id := "", content := [], similarity := 0,
    metaFilename := "", metaOriginalID := "", metaChunkIndex := "" }

/-! ## Chunker: `chunkDocument` (rag.go lines 113-143) -/

/-- The chunk record built in the loop body of `chunkDocument`:
`ID: fmt.Sprintf("%s-chunk-%d", doc.ID, len(chunks))`, metadata
`filename`, `originalID := doc.ID`, `chunkIndex := len(chunks)`. -/
def mkChunk (docID filename : String) (content : List Char) (idx : Nat) : GoDocument :=
  { id := docID ++ "-chunk-" ++ toString idx
    content := content
    metaFilename := filename
    metaOriginalID := docID
    metaChunkIndex := toString idx }

/-- The loop of `chunkDocument`, phrased on the suffix of the content that
starts at the loop variable `i`:  `content[i:end]` with
`end = min(i+chunkSize, len(content))` is `rest.take chunkSize`
(or all of `rest` when `end == len(content)`, i.e. when
`rest.length ≤ chunkSize`, which is also the `break` condition), and
`i += chunkSize - chunkOverlap` is `rest.drop (chunkSize - chunkOverlap)`.
`idx` is `len(chunks)`, the number of chunks appended so far. -/
def chunkLoop (docID filename : String) (rest : List Char) (idx : Nat) : List GoDocument :=
  if rest.length ≤ chunkSize then
    [mkChunk docID filename rest idx]
  else
    mkChunk docID filename (rest.take chunkSize) idx ::
      chunkLoop docID filename (rest.drop (chunkSize - chunkOverlap)) (idx + 1)
termination_by rest.length
decreasing_by simp [chunkSize, chunkOverlap] at *; omega

/-- `chunkDocument` (rag.go lines 113-143): documents of at most
`chunkSize` characters are returned unchanged as the single chunk;
otherwise the sliding-window loop runs from `i = 0`. -/
def chunkDocument (doc : GoDocument) : List GoDocument :=
  if doc.content.length ≤ chunkSize then [doc]
  else chunkLoop doc.id doc.metaFilename doc.content 0

/-! ## `strconv.Atoi` as used by `mergeChunks` -/

/-- Decimal value of a digit string. -/
def goDigitsVal (ds : List Char) : Nat :=
  ds.foldl (fun acc c => acc * 10 + (c.toNat - '0'.toNat)) 0

/-- Model of Go `strconv.Atoi` with its error ignored, as `mergeChunks`
calls it: an optional sign followed by one or more decimal digits parses
to its value, anything else yields the zero value 0 (Go returns 0
alongside the error, and the error is discarded at every call site).
The int64 range clamp on overflow is not modelled; chunk indices are
small. -/
def goAtoi (s : String) : Int :=
  match s.toList with
  | [] => 0
  | '+' :: ds =>
    if ds ≠ [] ∧ ds.all (fun c => c.isDigit) then (goDigitsVal ds : Int) else 0
  | '-' :: ds =>
    if ds ≠ [] ∧ ds.all (fun c => c.isDigit) then -(goDigitsVal ds : Int) else 0
  | ds =>
    if ds.all (fun c => c.isDigit) then (goDigitsVal ds : Int) else 0

/-! ## Chunk merger: `mergeChunks` (rag.go lines 158-219) -/

/-- The group key of a retrieval result: `originalID := doc.Metadata["originalID"];
if originalID == "" { originalID = doc.ID }`. -/
def groupKey (r : GoResult) : String :=
  if r.metaOriginalID = "" then r.id else r.metaOriginalID

/-- Append `r` to the group of `key`, creating the group at the end when
`key` is new. -/
def insertGrouped (groups : List (String × List GoResult)) (key : String)
    (r : GoResult) : List (String × List GoResult) :=
  match groups with
  | [] => [(key, [r])]
  | (k, rs) :: rest =>
    if k = key then (k, rs ++ [r]) :: rest
    else (k, rs) :: insertGrouped rest key r

/-- The grouping loop of `mergeChunks` (rag.go lines 160-167).  Go stores
the groups in a `map` whose iteration order is unspecified; the model
fixes first-appearance order.  Every claim proved below about the merged
results is insensitive to the order in which groups are emitted. -/
def groupByOriginalID (docs : List GoResult) : List (String × List GoResult) :=
  docs.foldl (fun gs r => insertGrouped gs (groupKey r) r) []

/-- The sort of a group by `chunkIndex` (rag.go lines 178-182),
`slices.SortFunc` with `cmp.Compare` on the `Atoi` of the metadata.  Go's
sort is unstable; the model uses insertion sort.  All claims proved below
do not depend on the order of chunks whose `chunkIndex` values are equal,
and the concrete inputs used all have distinct `chunkIndex` values, on
which every correct sort agrees. -/
def sortChunks (chunks : List GoResult) : List GoResult :=
  List.insertionSort
    (fun a b => goAtoi a.metaChunkIndex ≤ goAtoi b.metaChunkIndex) chunks

/-- The content-merging loop of `mergeChunks` for iterations `i ≥ 1`
(rag.go lines 196-208): `prev` is `chunks[i-1]` (the chunk before the
current one in sorted order, whether or not its content was appended);
the current chunk's content past the overlap is appended when the indices
are consecutive and the content is longer than the overlap. -/
def mergeContentLoop (prev : GoResult) : List GoResult → List Char
  | [] => []
  | c :: rest =>
    (if goAtoi prev.metaChunkIndex + 1 = goAtoi c.metaChunkIndex then
       (if chunkOverlap < c.content.length then c.content.drop chunkOverlap else [])
     else []) ++ mergeContentLoop c rest

/-- Merged content of a sorted group: chunk 0 in full (rag.go lines
190-193), then the loop above. -/
def mergeContent : List GoResult → List Char
  | [] => []
  | c :: rest => c.content ++ mergeContentLoop c rest

/-- The merge of one multi-chunk group (rag.go lines 177-216): sort by
`chunkIndex`; `totalSim` is incremented once per chunk of the group,
including chunks whose content is skipped (`totalSim++` runs before both
`continue`s); the result carries chunk 0's id and metadata and similarity
`totalSim / float32(len(chunks))`. -/
def mergeGroup (chunks : List GoResult) : GoResult :=
  let sorted := sortChunks chunks
  { id := (sorted.headD defaultGoResult).id
    content := mergeContent sorted
    similarity := (sorted.foldl (fun s _ => s + 1) (0 : ℚ)) / (sorted.length : ℚ)
    metaFilename := (sorted.headD defaultGoResult).metaFilename
    metaOriginalID := (sorted.headD defaultGoResult).metaOriginalID
    metaChunkIndex := (sorted.headD defaultGoResult).metaChunkIndex }

/-- `mergeChunks` (rag.go lines 158-219): group by `originalID`;
singleton groups pass through unchanged, larger groups are merged. -/
def mergeChunks (docs : List GoResult) : List GoResult :=
  (groupByOriginalID docs).map (fun g =>
    if g.2.length = 1 then g.2.headD defaultGoResult else mergeGroup g.2)

/-! ## Go errors -/

/-- Model of Go `error` values as this program builds them:
`context.Canceled`, `io.EOF`, a plain message (`fmt.Errorf` without
`%w`), or a wrapping message (`fmt.Errorf` with `%w`). -/
inductive GoError where
  | canceled : GoError
  | eof : GoError
  | base : String → GoError
  | wrapped : String → GoError → GoError
deriving DecidableEq

/-- Model of `errors.Is(err, context.Canceled)`: `%w`-wrapping preserves
the match. -/
def GoError.isCanceled : GoError → Bool
  | .canceled => true
  | .wrapped _ e => e.isCanceled
  | _ => false

/-! ## Retriever: `document.retrieve` (part_006 lines 407-426) -/

/-- The vector-store collection as the retriever sees it: the external
chromem library is abstracted by the response its `Query` would give for
the query at hand (a result list, or an error such as the mismatched
embedding-dimensionality failure). -/
structure Collection where
  queryRes : List GoResult
  queryErr : Option GoError
deriving DecidableEq

/-- `vectorDBCollectionName` (part_006 lines 403-405):
`fmt.Sprintf("doc-%d", d.ID)`. -/
def vectorDBCollectionName (docID : Int) : String :=
  "doc-" ++ toString docID

/-- Model of `chromem.DB.GetCollection`: the store is the list of
collections that have been created (a document that was never scanned has
none), and looking up a missing name yields Go `nil`, here `none`. -/
def getCollection (db : List (String × Collection)) (name : String) :
    Option Collection :=
  (db.find? (fun p => p.1 = name)).map (fun p => p.2)

/-- The similarity filter loop of `document.retrieve` (part_006 lines
419-423): results are appended in order when
`r.Similarity >= ragSimiliarityThreshold`. -/
def filterBySimilarity (threshold : ℚ) (docRes : List GoResult) : List GoResult :=
  docRes.foldl (fun res r => if threshold ≤ r.similarity then res ++ [r] else res) []

/-- `document.retrieve` (part_006 lines 407-426): a `nil` collection is an
error, a query error is wrapped and returned, otherwise the results are
filtered by the similarity threshold. -/
def retrieve (db : List (String × Collection)) (docID : Int) :
    Except GoError (List GoResult) :=
  let collName := vectorDBCollectionName docID
  match getCollection db collName with
  | none => .error (.base ("failed to get vectordb collection " ++ collName))
  | some coll =>
    match coll.queryErr with
    | some e =>
      .error (.wrapped ("failed to query vectordb collection " ++ collName) e)
    | none => .ok (filterBySimilarity ragSimiliarityThreshold coll.queryRes)

/-! ## Chat messages and the context-aware query builder
(chat.go lines 20-31, rag.go lines 221-257) -/

def roleUser : String := "user"

def roleAssistant : String := "assistant"

def roleSystem : String := "system"

/-- Model of the `chat` struct (chat.go lines 20-25); the timestamp, a
wall-clock value, is not modelled. -/
structure GoChat where
  role : String
  content : String
  failed : Bool
deriving DecidableEq

/-- The backwards loop of `getContextString` (rag.go lines 231-239).  The
first argument is the fuel `i + 1` for loop index `i`, so `0` is the exit
`i < 0`; the `pairs = 0` test is the `contextPairs > 0` half of the loop
condition; `chats[i+1]?` is the `i+1 < len(chats)` bound check combined
with the access. -/
def contextLoop (chats : List GoChat) : Nat → Nat → String → String
  | 0, _, context => context
  | i + 1, contextPairs, context =>
    if contextPairs = 0 then context
    else
      let c := chats.getD i ⟨"", "", false⟩
      if c.role = roleUser then
        let context1 := "User: " ++ c.content ++ "\n" ++ context
        match chats[i + 1]? with
        | some next =>
          if next.role = roleAssistant then
            contextLoop chats i (contextPairs - 1)
              ("Assistant: " ++ next.content ++ "\n" ++ context1)
          else contextLoop chats i contextPairs context1
        | none => contextLoop chats i contextPairs context1
      else contextLoop chats i contextPairs context

/-- `getContextString` (rag.go lines 221-242): empty history yields `""`;
otherwise the backwards loop starts at `i = len(chats) - 1` with
`contextPairs = 2`. -/
def getContextString (chats : List GoChat) : String :=
  if chats.length = 0 then ""
  else contextLoop chats chats.length 2 ""

/-- The construction of `searchText` in `rag.chat` (rag.go lines 252-257):
the context of the prior history (the current message excluded) is
prepended, newline-joined, unless it is empty. -/
def searchTextOf (priorChats : List GoChat) (msg : String) : String :=
  let contextString := getContextString priorChats
  if contextString = "" then msg else contextString ++ "\n" ++ msg

/-! ## Streaming: `ollama.chatStream` (ollama.go lines 140-231),
`rag.chat` event loop (rag.go lines 306-332) and
`mainModel.handleChatsResponse` (chat.go lines 158-218) -/

/-- One item sent on the provider's response channel
(`llmResponse`, llm.go lines 17-20). -/
structure LLMResponse where
  content : String
  err : Option GoError
deriving DecidableEq

/-- One item sent on the orchestrator's response channel
(`llmResponseMsg`, llm.go lines 22-28); absent fields of Go composite
literals are zero values. -/
structure LLMResponseMsg where
  chatIndex : Int
  content : String
  isThinking : Bool
  err : Option GoError
  done : Bool
deriving DecidableEq

/-- The decoder loop of `ollama.chatStream` (ollama.go lines 204-227) on
the sequence of decode outcomes, each an error or a
`(message content, done flag)` pair: `io.EOF` and `context.Canceled` end
the stream silently, any other decode error emits one wrapped error item
and ends it, a decoded chunk is emitted and ends the stream when its
`Done` flag is set. -/
def chatStreamLoop : List (Except GoError (String × Bool)) → List LLMResponse
  | [] => []
  | .error e :: _ =>
    if e = .eof then []
    else if e.isCanceled then []
    else [⟨"", some (.wrapped "error decoding response" e)⟩]
  | .ok (content, done) :: rest =>
    ⟨content, none⟩ :: (if done then [] else chatStreamLoop rest)

/-- `ollama.chatStream` (ollama.go lines 184-227) given the outcome of the
HTTP round trip: a canceled request ends the stream silently (lines
186-188), any other request failure emits one error item, and a successful
response is decoded by `chatStreamLoop`.  (The marshal and non-200-status
failure paths likewise emit a single non-cancellation error item and are
covered by the `.error` case.) -/
def chatStream (reqResult : Except GoError (List (Except GoError (String × Bool)))) :
    List LLMResponse :=
  match reqResult with
  | .error e =>
    if e.isCanceled then []
    else [⟨"", some (.wrapped "error sending request" e)⟩]
  | .ok decoded => chatStreamLoop decoded

/-- The streaming event loop of `rag.chat` (rag.go lines 306-332) over the
provider's channel items: an error item is forwarded as an error event
and ends the turn; a content item is forwarded with `isThinking: false`;
when the channel closes the terminal event `{done: true}` (all other
fields Go zero values) is sent. -/
def ragChatStreamEvents (index : Int) : List LLMResponse → List LLMResponseMsg
  | [] => [⟨0, "", false, none, true⟩]
  | r :: rest =>
    match r.err with
    | some e => [⟨index, "", false, some e, false⟩]
    | none => ⟨index, r.content, false, none, false⟩ :: ragChatStreamEvents index rest

/-- The fallback text `handleChatsResponse` stores on a failed reply
(chat.go line 171). -/
def fallbackText : String :=
  "Sorry, I'm having trouble connecting to the LLM. Please try again later."

/-- The part of the UI model state that `handleChatsResponse` reads and
writes: the selected session's `Chats`, `m.err` and `m.chatIsThinking`. -/
structure ChatHandlerState where
  chats : List GoChat
  errField : Option GoError
  isThinking : Bool
deriving DecidableEq

/-- In-place update of `Chats[len(Chats)-1]` (Go would panic on an empty
slice; every modelled scenario has a nonempty history). -/
def updateLast (f : GoChat → GoChat) : List GoChat → List GoChat
  | [] => []
  | [c] => [f c]
  | c :: rest => c :: updateLast f rest

/-- `mainModel.handleChatsResponse` (chat.go lines 158-218), restricted to
the state it changes (session save, title generation and view-size
recomputation are I/O commands).  A message whose `chatIndex` equals the
current history length first appends a fresh assistant message; an error
message marks the last message failed with the fallback text unless the
error is a cancellation, and surfaces the error; a content message appends
to the last message and tracks the thinking flag, cleared on `done`. -/
def handleChatsResponse (st : ChatHandlerState) (msg : LLMResponseMsg) :
    ChatHandlerState :=
  let chats :=
    if msg.chatIndex = (st.chats.length : Int) then
      st.chats ++ [⟨roleAssistant, "", false⟩]
    else st.chats
  match msg.err with
  | some e =>
    let chats :=
      if e.isCanceled then chats
      else updateLast (fun c => { c with content := fallbackText, failed := true }) chats
    { chats := chats, errField := some e, isThinking := false }
  | none =>
    { chats := updateLast (fun c => { c with content := c.content ++ msg.content }) chats
      errField := st.errField
      isThinking := if msg.done then false else msg.isThinking }

/-! ## Spec-side combinators and concrete inputs used in the claims -/

/-- Spec-side reconstruction of a chunk list: chunk 0 in full, every
subsequent chunk's content with its first `chunkOverlap` characters
removed. -/
def reconstructChunks : List GoDocument → List Char
  | [] => []
  | c :: cs => c.content ++ (cs.map (fun d => d.content.drop chunkOverlap)).flatten

/-- A 501-character document, the smallest content that is split. -/
def c4Doc : GoDocument :=
  { id := "d", content := List.replicate 501 'a',
    metaFilename := "f", metaOriginalID := "", metaChunkIndex := "" }

/-- A 3-character document, returned as a single chunk. -/
def c3SmallDoc : GoDocument :=
  { id := "s", content := ['x', 'y', 'z'],
    metaFilename := "f", metaOriginalID := "", metaChunkIndex := "" }

/-- A retrieved chunk of parent document `d` for the merge counterexample. -/
def c2Chunk (idx : String) (content : List Char) : GoResult :=
  { id := "d-chunk-" ++ idx, content := content, similarity := 0,
    metaFilename := "f", metaOriginalID := "d", metaChunkIndex := idx }

/-- Chunk 0 of the merge counterexample: one character of content. -/
def c2r0 : GoResult := c2Chunk "0" ['a']

/-- Chunk 2 of the merge counterexample: 51 characters of content. -/
def c2r2 : GoResult := c2Chunk "2" (List.replicate 51 'b')

/-- Chunk 3 of the merge counterexample: 51 characters of content. -/
def c2r3 : GoResult := c2Chunk "3" (List.replicate 51 'c')

/-- A retrieved group with chunk indices 0, 2, 3: the gap at 1 makes
chunk 2 non-sequential, while chunks 2 and 3 are consecutive in sorted
order even though chunk 2's content is never appended. -/
def c2Input : List GoResult := [c2r0, c2r2, c2r3]

/-- Two-chunk group with indices 0 and 1 (for claim C10's witness). -/
def c10Input : List GoResult :=
  [c2Chunk "0" ['a'], c2Chunk "1" (List.replicate 51 'e')]

/-- Four retrieval results with similarities 0.9, 0.6, 0.4, 0.5. -/
def c6Results : List GoResult :=
  [{ defaultGoResult with id := "r1", similarity := 9/10 },
   { defaultGoResult with id := "r2", similarity := 6/10 },
   { defaultGoResult with id := "r3", similarity := 4/10 },
   { defaultGoResult with id := "r4", similarity := 5/10 }]

/-- UI state for the streaming witness: the session already holds the
just-appended user message, no pending error, spinner running. -/
def c8State : ChatHandlerState :=
  { chats := [⟨roleUser, "hi", false⟩], errField := none, isThinking := true }

/-- Two streamed token chunks for the streaming witness. -/
def c8Contents : List String := ["Hel", "lo"]

end Doconvo

namespace Doconvo

/-! # Theorems -/

/-! ## Chunker lemmas -/

theorem chunkLoop_spec (docID fn : String) :
    ∀ (n : Nat) (rest : List Char) (idx : Nat), rest.length ≤ n →
      ∃ cs, chunkLoop docID fn rest idx =
          mkChunk docID fn (rest.take chunkSize) idx :: cs ∧
        reconstructChunks (chunkLoop docID fn rest idx) = rest := by
  intro n
  induction n with
  | zero =>
    intro rest idx h
    have hr : rest = [] := List.eq_nil_of_length_eq_zero (Nat.le_zero.mp h)
    subst hr
    rw [chunkLoop]
    simp [reconstructChunks, chunkSize, mkChunk]
  | succ n ih =>
    intro rest idx h
    by_cases hle : rest.length ≤ chunkSize
    · rw [chunkLoop, if_pos hle]
      exact ⟨[], by rw [List.take_of_length_le hle], by simp [reconstructChunks, mkChunk]⟩
    · rw [chunkLoop, if_neg hle]
      push_neg at hle
      have hrest' : (rest.drop (chunkSize - chunkOverlap)).length ≤ n := by
        simp only [List.length_drop, chunkSize, chunkOverlap] at *
        omega
      obtain ⟨cs', hhead, hrec⟩ := ih (rest.drop (chunkSize - chunkOverlap)) (idx + 1) hrest'
      refine ⟨chunkLoop docID fn (rest.drop (chunkSize - chunkOverlap)) (idx + 1), rfl, ?_⟩
      rw [hhead] at hrec ⊢
      simp only [reconstructChunks, mkChunk, List.map_cons, List.flatten_cons] at hrec ⊢
      -- hrec : (rest.drop 450).take 500 ++ J = rest.drop 450
      have hJ : (cs'.map (fun d => d.content.drop chunkOverlap)).flatten =
          (rest.drop (chunkSize - chunkOverlap)).drop chunkSize := by
        have hsplit : (rest.drop (chunkSize - chunkOverlap)).take chunkSize ++
            (cs'.map (fun d => d.content.drop chunkOverlap)).flatten =
            (rest.drop (chunkSize - chunkOverlap)).take chunkSize ++
            (rest.drop (chunkSize - chunkOverlap)).drop chunkSize := by
          rw [hrec, List.take_append_drop]
        exact List.append_cancel_left hsplit
      rw [hJ]
      simp only [chunkSize, chunkOverlap] at *
      rw [List.drop_take, List.drop_drop, List.drop_drop]
      norm_num
      calc rest.take 500 ++ ((rest.drop 500).take 450 ++ rest.drop 950)
          = rest.take 500 ++ ((rest.drop 500).take 450 ++ (rest.drop 500).drop 450) := by
            rw [List.drop_drop]
        _ = rest.take 500 ++ rest.drop 500 := by rw [List.take_append_drop]
        _ = rest := List.take_append_drop 500 rest

theorem chunkLoop_length (docID fn : String) :
    ∀ (n : Nat) (rest : List Char) (idx : Nat), rest.length ≤ n →
      (chunkLoop docID fn rest idx).length =
        if rest.length ≤ chunkSize then 1 else (rest.length - 51) / 450 + 1 := by
  intro n
  induction n with
  | zero =>
    intro rest idx h
    have hr : rest = [] := List.eq_nil_of_length_eq_zero (Nat.le_zero.mp h)
    subst hr
    rw [chunkLoop]
    simp [chunkSize]
  | succ n ih =>
    intro rest idx h
    by_cases hle : rest.length ≤ chunkSize
    · rw [chunkLoop, if_pos hle, if_pos hle]
      rfl
    · rw [chunkLoop, if_neg hle, if_neg hle]
      push_neg at hle
      have hrest' : (rest.drop (chunkSize - chunkOverlap)).length ≤ n := by
        simp only [List.length_drop, chunkSize, chunkOverlap] at *
        omega
      rw [List.length_cons, ih (rest.drop (chunkSize - chunkOverlap)) (idx + 1) hrest']
      simp only [List.length_drop, chunkSize, chunkOverlap] at hle ⊢
      by_cases hsmall : rest.length - 450 ≤ 500
      · rw [if_pos hsmall]
        have : (rest.length - 51) / 450 = 1 :=
          Nat.div_eq_of_lt_le (by omega) (by omega)
        omega
      · rw [if_neg hsmall]
        have h51 : rest.length - 51 = (rest.length - 450 - 51) + 450 := by omega
        rw [h51, Nat.add_div_right _ (by norm_num)]

theorem chunkLoop_ids (docID fn : String) :
    ∀ (n : Nat) (rest : List Char) (idx : Nat), rest.length ≤ n →
      (chunkLoop docID fn rest idx).map (fun c => (c.id, c.metaChunkIndex)) =
        (List.range (chunkLoop docID fn rest idx).length).map
          (fun j => (docID ++ "-chunk-" ++ toString (idx + j), toString (idx + j))) := by
  intro n
  induction n with
  | zero =>
    intro rest idx h
    have hr : rest = [] := List.eq_nil_of_length_eq_zero (Nat.le_zero.mp h)
    subst hr
    rw [chunkLoop]
    simp [chunkSize, mkChunk, List.range_succ, List.range_zero]
  | succ n ih =>
    intro rest idx h
    by_cases hle : rest.length ≤ chunkSize
    · rw [chunkLoop, if_pos hle]
      simp [mkChunk, List.range_succ, List.range_zero]
    · rw [chunkLoop, if_neg hle]
      push_neg at hle
      have hrest' : (rest.drop (chunkSize - chunkOverlap)).length ≤ n := by
        simp only [List.length_drop, chunkSize, chunkOverlap] at *
        omega
      rw [List.map_cons, ih (rest.drop (chunkSize - chunkOverlap)) (idx + 1) hrest',
        List.length_cons, List.range_succ_eq_map, List.map_cons, List.map_map]
      have hstep : ∀ j : Nat, idx + 1 + j = idx + (j + 1) := by omega
      simp only [mkChunk, Nat.add_zero]
      congr 1
      apply List.map_congr_left
      intro j _
      simp only [Function.comp_apply, Nat.succ_eq_add_one]
      rw [hstep j]

/-! ## Claim theorems: chunker -/

/-- Claim C3: a document of at most 500 characters is returned as the
single, unchanged chunk; a longer document's chunks reconstruct the
original content exactly when chunk 0 is taken in full and each
subsequent chunk's content is appended with its first 50 characters
removed. -/
theorem c3_chunk_roundtrip (doc : GoDocument) :
    (doc.content.length ≤ chunkSize → chunkDocument doc = [doc]) ∧
    (chunkSize < doc.content.length →
      reconstructChunks (chunkDocument doc) = doc.content) := by
  constructor
  · intro h
    rw [chunkDocument, if_pos h]
  · intro h
    rw [chunkDocument, if_neg (by omega)]
    exact (chunkLoop_spec doc.id doc.metaFilename doc.content.length
      doc.content 0 le_rfl).choose_spec.2

/-- Claim C3, applied: the 3-character document passes through unchanged
and the 501-character document reconstructs. -/
theorem c3_chunk_roundtrip_witness :
    chunkDocument c3SmallDoc = [c3SmallDoc] ∧
    reconstructChunks (chunkDocument c4Doc) = c4Doc.content :=
  ⟨(c3_chunk_roundtrip c3SmallDoc).1 (by norm_num [c3SmallDoc, chunkSize]),
   (c3_chunk_roundtrip c4Doc).2 (by norm_num [c4Doc, chunkSize])⟩

/-- Claim C4: a document of length L > 500 is split into exactly
ceil((L - 500) / 450) + 1 chunks (written with Nat division as
(L - 500 + 449) / 450 + 1), the j-th chunk's id is
`<documentID>-chunk-<j>` and its `chunkIndex` metadata is the stringified
j, sequentially from 0. -/
theorem c4_chunk_count_and_ids (doc : GoDocument)
    (h : chunkSize < doc.content.length) :
    (chunkDocument doc).length = (doc.content.length - chunkSize + 449) / 450 + 1 ∧
    (chunkDocument doc).map (fun c => (c.id, c.metaChunkIndex)) =
      (List.range (chunkDocument doc).length).map
        (fun j => (doc.id ++ "-chunk-" ++ toString j, toString j)) := by
  have hd : chunkDocument doc = chunkLoop doc.id doc.metaFilename doc.content 0 := by
    rw [chunkDocument, if_neg (by omega)]
  constructor
  · rw [hd, chunkLoop_length doc.id doc.metaFilename doc.content.length
      doc.content 0 le_rfl, if_neg (by omega)]
    have : doc.content.length - chunkSize + 449 = doc.content.length - 51 := by
      simp only [chunkSize] at *
      omega
    rw [this]
  · rw [hd]
    have := chunkLoop_ids doc.id doc.metaFilename doc.content.length
      doc.content 0 le_rfl
    simpa using this

/-- Claim C4, applied to the 501-character document: 2 chunks with ids
d-chunk-0, d-chunk-1 and chunk indices 0, 1. -/
theorem c4_chunk_count_and_ids_witness :
    chunkSize < c4Doc.content.length ∧
    ((chunkDocument c4Doc).length = (c4Doc.content.length - chunkSize + 449) / 450 + 1 ∧
     (chunkDocument c4Doc).map (fun c => (c.id, c.metaChunkIndex)) =
       (List.range (chunkDocument c4Doc).length).map
         (fun j => (c4Doc.id ++ "-chunk-" ++ toString j, toString j))) :=
  ⟨by norm_num [c4Doc, chunkSize],
   c4_chunk_count_and_ids c4Doc (by norm_num [c4Doc, chunkSize])⟩

/-! ## Merger lemmas -/

theorem goAtoi_str_zero : goAtoi "0" = 0 := by decide

theorem goAtoi_str_one : goAtoi "1" = 1 := by decide

theorem goAtoi_str_two : goAtoi "2" = 2 := by decide

theorem mergeContentLoop_zip (rest : List GoResult) : ∀ prev : GoResult,
    mergeContentLoop prev rest =
      (((prev :: rest).zip rest).map (fun p =>
        if goAtoi p.1.metaChunkIndex + 1 = goAtoi p.2.metaChunkIndex then
          p.2.content.drop chunkOverlap
        else [])).flatten := by
  induction rest with
  | nil => intro prev; rfl
  | cons c rest ih =>
    intro prev
    rw [mergeContentLoop, ih c]
    simp only [List.zip_cons_cons, List.map_cons, List.flatten_cons]
    congr 1
    by_cases hc : goAtoi prev.metaChunkIndex + 1 = goAtoi c.metaChunkIndex
    · rw [if_pos hc, if_pos hc]
      by_cases hl : chunkOverlap < c.content.length
      · rw [if_pos hl]
      · rw [if_neg hl, List.drop_eq_nil_of_le (by omega)]
    · rw [if_neg hc, if_neg hc]

theorem foldl_count (l : List GoResult) : ∀ c : ℚ,
    l.foldl (fun s _ => s + 1) c = c + l.length := by
  induction l with
  | nil => intro c; simp
  | cons x l ih =>
    intro c
    rw [List.foldl_cons, ih (c + 1), List.length_cons]
    push_cast
    ring

/-! ## Claim theorems: merger -/

/-- Claim C2 counterexample: with sorted chunk indices 0, 2, 3 the only
chunk whose content was appended before chunk 3 is chunk 0 (index 0);
under the claim's rule chunk 3 (index 3 ≠ 0 + 1) would be skipped and the
merged content would be chunk 0's alone, but the code compares chunk 3
against the chunk immediately before it in sorted order (the skipped
chunk 2, index 2 = 3 - 1) and appends its content. -/
theorem c2_counterexample :
    (mergeChunks c2Input).map GoResult.content = [['a', 'c']] ∧
    (['a', 'c'] : List Char) ≠ ['a'] := by
  exact ⟨by decide, by decide⟩

/-- Claim C2 (amended): in a multi-chunk group sorted ascending by
chunkIndex, a subsequent chunk's content — with its first 50 characters
dropped — is appended exactly when its chunkIndex is one greater than the
chunkIndex of the chunk immediately before it in the sorted order,
whether or not that preceding chunk's own content was appended; chunks
failing this test contribute no content.  (A sequential chunk of at most
50 characters also contributes no characters, which coincides with its
dropped content being empty.) -/
theorem c2_merge_append_rule (chunks : List GoResult) (c0 : GoResult)
    (rest : List GoResult) (h : sortChunks chunks = c0 :: rest) :
    (mergeGroup chunks).content =
      c0.content ++
        (((c0 :: rest).zip rest).map (fun p =>
          if goAtoi p.1.metaChunkIndex + 1 = goAtoi p.2.metaChunkIndex then
            p.2.content.drop chunkOverlap
          else [])).flatten := by
  simp only [mergeGroup, h, mergeContent]
  rw [mergeContentLoop_zip]

/-- Claim C2 (amended), applied to the group with chunk indices 0, 2, 3. -/
theorem c2_merge_append_rule_witness :
    sortChunks c2Input = c2r0 :: [c2r2, c2r3] ∧
    (mergeGroup c2Input).content =
      c2r0.content ++
        (((c2r0 :: [c2r2, c2r3]).zip [c2r2, c2r3]).map (fun p =>
          if goAtoi p.1.metaChunkIndex + 1 = goAtoi p.2.metaChunkIndex then
            p.2.content.drop chunkOverlap
          else [])).flatten :=
  ⟨by decide, c2_merge_append_rule c2Input c2r0 [c2r2, c2r3] (by decide)⟩

/-- Claim C5: two chunks of the same (nonempty) originalID with chunk
indices 0 and 1 merge into chunk 0's content followed by chunk 1's
content with its first 50 characters dropped; with indices 0 and 2 the
merged content is chunk 0's alone; in both cases the merged similarity is
2/2 = 1, whatever the retrieval similarities s0, s1 were, and the merged
result carries chunk 0's id and metadata. -/
theorem c5_merge_determinism (id0 id1 f0 f1 : String) (a0 a1 a2 : List Char)
    (s0 s1 : ℚ) (oid : String) (h : oid ≠ "") :
    mergeChunks [⟨id0, a0, s0, f0, oid, "0"⟩, ⟨id1, a1, s1, f1, oid, "1"⟩] =
      [⟨id0, a0 ++ a1.drop chunkOverlap, 2 / 2, f0, oid, "0"⟩] ∧
    mergeChunks [⟨id0, a0, s0, f0, oid, "0"⟩, ⟨id1, a2, s1, f1, oid, "2"⟩] =
      [⟨id0, a0, 2 / 2, f0, oid, "0"⟩] := by
  have hdrop : (if chunkOverlap < a1.length then a1.drop chunkOverlap else []) =
      a1.drop chunkOverlap := by
    by_cases hl : chunkOverlap < a1.length
    · rw [if_pos hl]
    · rw [if_neg hl, List.drop_eq_nil_of_le (by omega)]
  constructor
  · simp only [mergeChunks, groupByOriginalID, List.foldl, insertGrouped, groupKey, h,
      if_neg h, if_pos rfl, ite_false, ite_true, List.map, mergeGroup, sortChunks,
      List.insertionSort, List.orderedInsert, goAtoi_str_zero, goAtoi_str_one,
      foldl_count]
    norm_num [mergeContent, mergeContentLoop, hdrop, goAtoi_str_zero, goAtoi_str_one]
  · simp only [mergeChunks, groupByOriginalID, List.foldl, insertGrouped, groupKey, h,
      if_neg h, if_pos rfl, ite_false, ite_true, List.map, mergeGroup, sortChunks,
      List.insertionSort, List.orderedInsert, goAtoi_str_zero, goAtoi_str_two,
      foldl_count]
    norm_num [mergeContent, mergeContentLoop, goAtoi_str_zero, goAtoi_str_two]

/-- Claim C5, applied with concrete contents and similarities. -/
theorem c5_merge_determinism_witness :
    mergeChunks [⟨"i", ['a'], 0, "f", "X", "0"⟩, ⟨"j", ['b'], 0, "g", "X", "1"⟩] =
      [⟨"i", ['a'] ++ (['b'] : List Char).drop chunkOverlap, 2 / 2, "f", "X", "0"⟩] ∧
    mergeChunks [⟨"i", ['a'], 0, "f", "X", "0"⟩, ⟨"j", ['c'], 0, "g", "X", "2"⟩] =
      [⟨"i", ['a'], 2 / 2, "f", "X", "0"⟩] :=
  c5_merge_determinism "i" "j" "f" "g" ['a'] ['b'] ['c'] 0 0 "X" (by decide)

/-- Claim C10: every output of `mergeChunks` produced from a group of two
or more chunks has similarity exactly 1: `totalSim` is incremented once
per grouped chunk (including chunks whose content is skipped), so the
average is (group size)/(group size) and never reflects the retrieval
similarities. -/
theorem c10_merged_similarity_one (docs : List GoResult)
    (g : String × List GoResult) (hg : g ∈ groupByOriginalID docs)
    (hlen : 2 ≤ g.2.length) :
    (mergeGroup g.2).similarity = 1 ∧ mergeGroup g.2 ∈ mergeChunks docs := by
  constructor
  · simp only [mergeGroup]
    rw [foldl_count]
    have hlen' : (sortChunks g.2).length = g.2.length :=
      List.length_insertionSort _ _
    rw [hlen']
    have hne : ((g.2.length : ℚ)) ≠ 0 := Nat.cast_ne_zero.mpr (by omega)
    rw [zero_add]
    exact div_self hne
  · rw [mergeChunks]
    exact List.mem_map.mpr ⟨g, hg, by rw [if_neg (by omega)]⟩

/-- Claim C10, applied to a two-chunk group with similarities 0. -/
theorem c10_merged_similarity_one_witness :
    (("d", c10Input) ∈ groupByOriginalID c10Input ∧ 2 ≤ c10Input.length) ∧
    ((mergeGroup c10Input).similarity = 1 ∧
      mergeGroup c10Input ∈ mergeChunks c10Input) :=
  ⟨⟨by decide, by decide⟩,
   c10_merged_similarity_one c10Input ("d", c10Input) (by decide) (by decide)⟩

/-! ## Claim theorems: retriever -/

theorem filterBySimilarity_loop (threshold : ℚ) (docRes : List GoResult) :
    ∀ acc : List GoResult,
      docRes.foldl (fun res r => if threshold ≤ r.similarity then res ++ [r] else res) acc =
        acc ++ docRes.filter (fun r => threshold ≤ r.similarity) := by
  induction docRes with
  | nil => intro acc; simp
  | cons r rest ih =>
    intro acc
    rw [List.foldl_cons]
    by_cases hc : threshold ≤ r.similarity
    · rw [if_pos hc, ih, List.filter_cons_of_pos (by simpa using hc)]
      simp
    · rw [if_neg hc, ih, List.filter_cons_of_neg (by simpa using hc)]

/-- Claim C6: the similarity filter of `retrieve` keeps exactly the
results whose similarity is at least the threshold, in their original
order (it equals `List.filter`); on similarities 0.9, 0.6, 0.4, 0.5 with
the threshold 0.5, exactly 0.9, 0.6, 0.5 remain — the boundary 0.5 is
kept. -/
theorem c6_similarity_filter :
    (∀ (threshold : ℚ) (docRes : List GoResult),
      filterBySimilarity threshold docRes =
        docRes.filter (fun r => threshold ≤ r.similarity)) ∧
    (filterBySimilarity ragSimiliarityThreshold c6Results).map GoResult.similarity =
      [9/10, 6/10, 5/10] := by
  constructor
  · intro threshold docRes
    rw [filterBySimilarity, filterBySimilarity_loop]
    rfl
  · norm_num [filterBySimilarity, c6Results, ragSimiliarityThreshold, defaultGoResult]

/-- Claim C1 counterexample: retrieving from a store in which the
document's collection was never created (document id 1, empty store)
returns an error, not an empty result list. -/
theorem c1_counterexample :
    retrieve [] 1 = .error (.base "failed to get vectordb collection doc-1") ∧
    retrieve [] 1 ≠ Except.ok ([] : List GoResult) :=
  ⟨rfl, by simp [retrieve, getCollection]⟩

/-- Claim C1 (amended): for every document whose vector collection has
never been created (`GetCollection` yields nil), `retrieve` returns the
error "failed to get vectordb collection doc-(id)" — it is NOT treated as
zero results. -/
theorem c1_never_scanned_is_error (db : List (String × Collection)) (docID : Int)
    (h : getCollection db (vectorDBCollectionName docID) = none) :
    retrieve db docID =
      .error (.base ("failed to get vectordb collection " ++
        vectorDBCollectionName docID)) := by
  simp only [retrieve, h]

/-- Claim C1 (amended), applied to the empty store and document id 7. -/
theorem c1_never_scanned_is_error_witness :
    getCollection ([] : List (String × Collection)) (vectorDBCollectionName 7) = none ∧
    retrieve [] 7 =
      .error (.base ("failed to get vectordb collection " ++
        vectorDBCollectionName 7)) :=
  ⟨by decide, c1_never_scanned_is_error [] 7 (by decide)⟩

/-! ## Claim theorems: context-aware query builder -/

theorem append_ne_empty_of_data_ne_nil (s t : String) (h : s.data ≠ []) :
    s ++ t ≠ "" := by
  intro hfalse
  have hd := congrArg String.data hfalse
  rw [String.data_append] at hd
  exact h (List.append_eq_nil.mp hd).1

/-- Claim C7: with 5 prior user/assistant pairs, the search text built for
retrieval contains exactly the last 2 pairs followed by the new message
(within a recalled pair the loop prepends the assistant line before its
user line); with no prior history the search text is the new message
alone. -/
theorem c7_context_window (u1 a1 u2 a2 u3 a3 u4 a4 u5 a5 msg : String) :
    searchTextOf
      [⟨roleUser, u1, false⟩, ⟨roleAssistant, a1, false⟩,
       ⟨roleUser, u2, false⟩, ⟨roleAssistant, a2, false⟩,
       ⟨roleUser, u3, false⟩, ⟨roleAssistant, a3, false⟩,
       ⟨roleUser, u4, false⟩, ⟨roleAssistant, a4, false⟩,
       ⟨roleUser, u5, false⟩, ⟨roleAssistant, a5, false⟩] msg =
      "Assistant: " ++ a4 ++ "\n" ++ "User: " ++ u4 ++ "\n" ++
        "Assistant: " ++ a5 ++ "\n" ++ "User: " ++ u5 ++ "\n" ++ "\n" ++ msg ∧
    searchTextOf [] msg = msg := by
  constructor
  · have hctx : getContextString
        [⟨roleUser, u1, false⟩, ⟨roleAssistant, a1, false⟩,
         ⟨roleUser, u2, false⟩, ⟨roleAssistant, a2, false⟩,
         ⟨roleUser, u3, false⟩, ⟨roleAssistant, a3, false⟩,
         ⟨roleUser, u4, false⟩, ⟨roleAssistant, a4, false⟩,
         ⟨roleUser, u5, false⟩, ⟨roleAssistant, a5, false⟩] =
        "Assistant: " ++ (a4 ++ ("\n" ++ ("User: " ++ (u4 ++ ("\n" ++
          ("Assistant: " ++ (a5 ++ ("\n" ++ ("User: " ++ (u5 ++ "\n")))))))))) := by
      simp [getContextString, contextLoop, roleUser, roleAssistant,
        String.append_assoc, String.append_empty, List.getD]
    rw [searchTextOf, hctx]
    rw [if_neg (append_ne_empty_of_data_ne_nil _ _ (by decide))]
    have hmU : ∀ s : String, "\n" ++ ("User: " ++ s) = "\nUser: " ++ s := by
      intro s
      rw [← String.append_assoc]
      rfl
    have hmA : ∀ s : String, "\n" ++ ("Assistant: " ++ s) = "\nAssistant: " ++ s := by
      intro s
      rw [← String.append_assoc]
      rfl
    simp [String.append_assoc, hmU, hmA]
  · simp [searchTextOf, getContextString]

/-! ## Streaming lemmas -/

theorem updateLast_append (f : GoChat → GoChat) (c : GoChat) :
    ∀ base : List GoChat, updateLast f (base ++ [c]) = base ++ [f c]
  | [] => rfl
  | [_] => rfl
  | b :: b2 :: base => congrArg (List.cons b) (updateLast_append f c (b2 :: base))

theorem mem_updateLast (f : GoChat → GoChat) :
    ∀ (l : List GoChat) (c : GoChat), c ∈ updateLast f l →
      c ∈ l ∨ ∃ d, d ∈ l ∧ c = f d
  | [], c, h => absurd h (by simp [updateLast])
  | [d], c, h => by
    simp only [updateLast, List.mem_singleton] at h
    exact Or.inr ⟨d, by simp, h⟩
  | d :: d2 :: rest, c, h => by
    simp only [updateLast] at h
    rcases List.mem_cons.mp h with h1 | h2
    · exact Or.inl (by simp [h1])
    · rcases mem_updateLast f (d2 :: rest) c h2 with h3 | ⟨e, he, hce⟩
      · exact Or.inl (List.mem_cons_of_mem _ h3)
      · exact Or.inr ⟨e, List.mem_cons_of_mem _ he, hce⟩

theorem chatStreamLoop_cancel (e : GoError) (hcancel : e.isCanceled = true) :
    ∀ contents : List String,
      chatStreamLoop (contents.map (fun c => .ok (c, false)) ++ [.error e]) =
        contents.map (fun c => (⟨c, none⟩ : LLMResponse)) := by
  have hne : e ≠ .eof := by
    intro hfalse
    rw [hfalse] at hcancel
    simp [GoError.isCanceled] at hcancel
  intro contents
  induction contents with
  | nil => simp [chatStreamLoop, hne, hcancel]
  | cons c cs ih => simp [chatStreamLoop, ih]

theorem chatStreamLoop_error (e : GoError) (h1 : e.isCanceled = false)
    (h2 : e ≠ .eof) :
    ∀ contents : List String,
      chatStreamLoop (contents.map (fun c => .ok (c, false)) ++ [.error e]) =
        contents.map (fun c => (⟨c, none⟩ : LLMResponse)) ++
          [⟨"", some (.wrapped "error decoding response" e)⟩] := by
  intro contents
  induction contents with
  | nil => simp [chatStreamLoop, h1, h2]
  | cons c cs ih => simp [chatStreamLoop, ih]

theorem ragChatEvents_no_err (index : Int) :
    ∀ stream : List LLMResponse, (∀ r ∈ stream, r.err = none) →
      ragChatStreamEvents index stream =
        stream.map (fun r => (⟨index, r.content, false, none, false⟩ : LLMResponseMsg)) ++
          [⟨0, "", false, none, true⟩] := by
  intro stream
  induction stream with
  | nil => intro _; rfl
  | cons r rest ih =>
    intro h
    have hr : r.err = none := h r (List.mem_cons_self r rest)
    simp [ragChatStreamEvents, hr, ih (fun x hx => h x (List.mem_cons_of_mem r hx))]

theorem ragChatEvents_error (index : Int) (er : GoError) :
    ∀ stream : List LLMResponse, (∀ r ∈ stream, r.err = none) →
      ragChatStreamEvents index (stream ++ [⟨"", some er⟩]) =
        stream.map (fun r => (⟨index, r.content, false, none, false⟩ : LLMResponseMsg)) ++
          [⟨index, "", false, some er, false⟩] := by
  intro stream
  induction stream with
  | nil => intro _; rfl
  | cons r rest ih =>
    intro h
    have hr : r.err = none := h r (List.mem_cons_self r rest)
    simp [ragChatStreamEvents, hr, ih (fun x hx => h x (List.mem_cons_of_mem r hx))]

theorem handle_preserves_not_failed (st : ChatHandlerState) (msg : LLMResponseMsg)
    (hmsg : msg.err = none) (hst : ∀ c ∈ st.chats, c.failed = false) :
    ∀ c ∈ (handleChatsResponse st msg).chats, c.failed = false := by
  intro c hc
  simp only [handleChatsResponse, hmsg] at hc
  have hbase : ∀ d ∈ (if msg.chatIndex = (st.chats.length : Int) then
      st.chats ++ [⟨roleAssistant, "", false⟩] else st.chats), d.failed = false := by
    intro d hd
    by_cases hix : msg.chatIndex = (st.chats.length : Int)
    · rw [if_pos hix] at hd
      rcases List.mem_append.mp hd with h | h
      · exact hst d h
      · simp at h
        rw [h]
    · rw [if_neg hix] at hd
      exact hst d hd
  rcases mem_updateLast _ _ c hc with h | ⟨d, hd, rfl⟩
  · exact hbase c h
  · simpa using hbase d hd

theorem foldl_preserves_not_failed :
    ∀ (events : List LLMResponseMsg) (st : ChatHandlerState),
      (∀ m ∈ events, m.err = none) → (∀ c ∈ st.chats, c.failed = false) →
      ∀ c ∈ (events.foldl handleChatsResponse st).chats, c.failed = false
  | [], _, _, hst => hst
  | m :: events, st, hev, hst => by
    rw [List.foldl_cons]
    exact foldl_preserves_not_failed events _
      (fun x hx => hev x (List.mem_cons_of_mem m hx))
      (handle_preserves_not_failed st m (hev m (List.mem_cons_self m events)) hst)

theorem handleChatsResponse_content_append (chats0 : List GoChat)
    (errF : Option GoError) (think : Bool) (content : String) :
    handleChatsResponse ⟨chats0, errF, think⟩
      ⟨(chats0.length : Int), content, false, none, false⟩ =
      ⟨chats0 ++ [⟨roleAssistant, "" ++ content, false⟩], errF, false⟩ := by
  simp [handleChatsResponse, updateLast_append]

theorem handleChatsResponse_content_noappend (base : List GoChat) (s : String)
    (errF : Option GoError) (think : Bool) (content : String) :
    handleChatsResponse ⟨base ++ [⟨roleAssistant, s, false⟩], errF, think⟩
      ⟨(base.length : Int), content, false, none, false⟩ =
      ⟨base ++ [⟨roleAssistant, s ++ content, false⟩], errF, false⟩ := by
  simp only [handleChatsResponse]
  rw [if_neg (by simp)]
  simp [updateLast_append]

theorem handleChatsResponse_error_append (chats0 : List GoChat)
    (errF : Option GoError) (think : Bool) (er : GoError)
    (her : er.isCanceled = false) :
    handleChatsResponse ⟨chats0, errF, think⟩
      ⟨(chats0.length : Int), "", false, some er, false⟩ =
      ⟨chats0 ++ [⟨roleAssistant, fallbackText, true⟩], some er, false⟩ := by
  simp [handleChatsResponse, her, updateLast_append]

theorem handleChatsResponse_error_noappend (base : List GoChat) (s : String)
    (errF : Option GoError) (think : Bool) (er : GoError)
    (her : er.isCanceled = false) :
    handleChatsResponse ⟨base ++ [⟨roleAssistant, s, false⟩], errF, think⟩
      ⟨(base.length : Int), "", false, some er, false⟩ =
      ⟨base ++ [⟨roleAssistant, fallbackText, true⟩], some er, false⟩ := by
  simp only [handleChatsResponse, her, Bool.false_eq_true, if_false]
  rw [if_neg (by simp)]
  simp [updateLast_append]

theorem foldl_content_msgs (base : List GoChat) :
    ∀ (cs : List String) (s : String) (errF : Option GoError) (think : Bool),
      (cs.map (fun c => (⟨(base.length : Int), c, false, none, false⟩ :
          LLMResponseMsg))).foldl
        handleChatsResponse ⟨base ++ [⟨roleAssistant, s, false⟩], errF, think⟩ =
      ⟨base ++ [⟨roleAssistant, cs.foldl (fun a b => a ++ b) s, false⟩], errF,
        if cs.isEmpty then think else false⟩ := by
  intro cs
  induction cs with
  | nil => intro s errF think; simp
  | cons c cs ih =>
    intro s errF think
    rw [List.map_cons, List.foldl_cons, handleChatsResponse_content_noappend, ih]
    cases cs <;> simp

/-! ## Claim theorems: streaming and cancellation -/

/-- Claim C8: a chat turn whose provider stream ends in a user-initiated
cancellation (the ollama decode loop receives `context.Canceled` after
some streamed chunks) produces no event carrying an error — in
particular no "done" event with an error set — and after the UI handler
has consumed every event no message of the session is marked failed; for
every non-cancellation stream error (and `io.EOF` is the normal end of
stream, not an error) the handler leaves the pending assistant message
as the last message with `failed := true` and the user-facing fallback
text, and surfaces the wrapped error in the model's error field. -/
theorem c8_cancellation_semantics (index : Int) (contents : List String)
    (e : GoError) (st0 : ChatHandlerState)
    (hcancel : e.isCanceled = true)
    (hnofail : ∀ c ∈ st0.chats, c.failed = false)
    (hidx : index = (st0.chats.length : Int)) :
    (∀ m ∈ ragChatStreamEvents index
        (chatStream (.ok (contents.map (fun c => .ok (c, false)) ++ [.error e]))),
      m.err = none ∧ (m.done = true → m.err = none)) ∧
    (∀ c ∈ ((ragChatStreamEvents index
        (chatStream (.ok (contents.map (fun c => .ok (c, false)) ++
          [.error e])))).foldl handleChatsResponse st0).chats,
      c.failed = false) ∧
    (∀ e2 : GoError, e2.isCanceled = false → e2 ≠ .eof →
      ((ragChatStreamEvents index
          (chatStream (.ok (contents.map (fun c => .ok (c, false)) ++
            [.error e2])))).foldl handleChatsResponse st0).chats.getLast? =
        some ⟨roleAssistant, fallbackText, true⟩ ∧
      ((ragChatStreamEvents index
          (chatStream (.ok (contents.map (fun c => .ok (c, false)) ++
            [.error e2])))).foldl handleChatsResponse st0).errField =
        some (.wrapped "error decoding response" e2)) := by
  have hnoerr : ∀ r ∈ contents.map (fun c => (⟨c, none⟩ : LLMResponse)),
      r.err = none := by
    intro r hr
    obtain ⟨c, _, rfl⟩ := List.mem_map.mp hr
    rfl
  have hevents : ragChatStreamEvents index
      (chatStream (.ok (contents.map (fun c => .ok (c, false)) ++ [.error e]))) =
      (contents.map (fun c => (⟨c, none⟩ : LLMResponse))).map
        (fun r => (⟨index, r.content, false, none, false⟩ : LLMResponseMsg)) ++
        [⟨0, "", false, none, true⟩] := by
    rw [chatStream, chatStreamLoop_cancel e hcancel contents]
    exact ragChatEvents_no_err index _ hnoerr
  have hallnone : ∀ m ∈ ragChatStreamEvents index
      (chatStream (.ok (contents.map (fun c => .ok (c, false)) ++ [.error e]))),
      m.err = none := by
    intro m hm
    rw [hevents] at hm
    rcases List.mem_append.mp hm with h | h
    · obtain ⟨r, _, rfl⟩ := List.mem_map.mp h
      rfl
    · simp at h
      rw [h]
  refine ⟨fun m hm => ⟨hallnone m hm, fun _ => hallnone m hm⟩, ?_, ?_⟩
  · exact foldl_preserves_not_failed _ st0 hallnone hnofail
  · intro e2 h1 h2
    obtain ⟨chats0, errF0, think0⟩ := st0
    simp only at hidx hnofail
    subst hidx
    have hevents2 : ragChatStreamEvents (chats0.length : Int)
        (chatStream (.ok (contents.map (fun c => .ok (c, false)) ++ [.error e2]))) =
        contents.map (fun c =>
          (⟨(chats0.length : Int), c, false, none, false⟩ : LLMResponseMsg)) ++
          [⟨(chats0.length : Int), "", false,
            some (.wrapped "error decoding response" e2), false⟩] := by
      rw [chatStream, chatStreamLoop_error e2 h1 h2 contents,
        ragChatEvents_error _ _ _ hnoerr, List.map_map]
      rfl
    rw [hevents2, List.foldl_append]
    cases contents with
    | nil =>
      simp only [List.map_nil, List.foldl_nil, List.foldl_cons]
      rw [handleChatsResponse_error_append chats0 errF0 think0
        (.wrapped "error decoding response" e2) (by simp [GoError.isCanceled, h1])]
      exact ⟨by simp, rfl⟩
    | cons c cs =>
      simp only [List.map_cons, List.foldl_cons]
      rw [handleChatsResponse_content_append chats0 errF0 think0 c,
        foldl_content_msgs chats0 cs ("" ++ c) errF0 false]
      simp only [List.foldl_cons, List.foldl_nil, ite_self]
      rw [handleChatsResponse_error_noappend chats0 _ errF0 false
        (.wrapped "error decoding response" e2) (by simp [GoError.isCanceled, h1])]
      exact ⟨by simp, rfl⟩

/-- Claim C8, applied: two streamed chunks, then a cancellation, starting
from a session holding one user message. -/
theorem c8_cancellation_semantics_witness :
    (GoError.isCanceled .canceled = true ∧
      (∀ c ∈ c8State.chats, c.failed = false) ∧
      (1 : Int) = (c8State.chats.length : Int)) ∧
    ((∀ m ∈ ragChatStreamEvents 1
        (chatStream (.ok (c8Contents.map (fun c => .ok (c, false)) ++
          [.error .canceled]))),
      m.err = none ∧ (m.done = true → m.err = none)) ∧
    (∀ c ∈ ((ragChatStreamEvents 1
        (chatStream (.ok (c8Contents.map (fun c => .ok (c, false)) ++
          [.error .canceled])))).foldl handleChatsResponse c8State).chats,
      c.failed = false) ∧
    (∀ e2 : GoError, e2.isCanceled = false → e2 ≠ .eof →
      ((ragChatStreamEvents 1
          (chatStream (.ok (c8Contents.map (fun c => .ok (c, false)) ++
            [.error e2])))).foldl handleChatsResponse c8State).chats.getLast? =
        some ⟨roleAssistant, fallbackText, true⟩ ∧
      ((ragChatStreamEvents 1
          (chatStream (.ok (c8Contents.map (fun c => .ok (c, false)) ++
            [.error e2])))).foldl handleChatsResponse c8State).errField =
        some (.wrapped "error decoding response" e2))) :=
  ⟨⟨rfl, by decide, by decide⟩,
   c8_cancellation_semantics 1 c8Contents .canceled c8State rfl (by decide) (by decide)⟩

end Doconvo
